import Mathlib

/-!
Verification of the Saleae Logic socket-API client (`Salamander.py` /
`SaleaeApi.py`) against its natural-language specification.

The embedding models the protocol engine as pure functions:
* Python string primitives (`str.split`, `str.strip`, `str.join`,
  `int(s)`, `int(s, base=0)`) are modelled over `List Char` / `String`;
* the request frame built by `_SaleaeSocket.request` is returned by
  `encodeRequest` (the bytes that `sock.send` would write);
* the response half of `request` is a function of the byte buffer that
  `sock.recv` returns; Python exceptions (`NAKError`, `ResponseError`,
  `ValueError`, `IndexError`) appear as `Except SalError` errors.
-/

namespace Salamander

/-! ## Python string primitives -/

/-- Characters stripped by Python `str.strip()` (ASCII whitespace). -/
def pyIsSpace (c : Char) : Bool :=
  c = ' ' ∨ c = '\t' ∨ c = '\n' ∨ c = '\r' ∨ c = '\x0b' ∨ c = '\x0c'

/-- `str.strip()` on a character list: drop whitespace at both ends. -/
def stripChars (cs : List Char) : List Char :=
  ((cs.dropWhile pyIsSpace).reverse.dropWhile pyIsSpace).reverse

/-- Python `str.strip()`. -/
def pyStrip (s : String) : String := String.mk (stripChars s.toList)

/-- Python `str.split(sep)` on character lists, for a non-empty separator
`s0 :: srest`: scan left to right, cutting at each (leftmost,
non-overlapping) occurrence of the separator. The `fuel` argument only
makes the recursion structural; any `fuel ≥ length of the input` gives
the same result (`splitCharsF_congr`). -/
def splitCharsF (s0 : Char) (srest : List Char) : Nat → List Char → List (List Char)
  | _, [] => [[]]
  | 0, c :: cs => [c :: cs]
  | fuel + 1, c :: cs =>
    if (s0 :: srest).isPrefixOf (c :: cs) then
      [] :: splitCharsF s0 srest fuel (cs.drop srest.length)
    else
      match splitCharsF s0 srest fuel cs with
      | [] => [[c]]
      | g :: gs => (c :: g) :: gs

/-- `splitCharsF` with enough fuel to finish the scan. -/
def splitChars (s0 : Char) (srest cs : List Char) : List (List Char) :=
  splitCharsF s0 srest cs.length cs

/-- Python `s.split(sep)` for a non-empty separator (Python raises
`ValueError` on an empty separator; no call site uses one). -/
def pySplit (sep : String) (s : String) : List String :=
  match sep.toList with
  | [] => [s]
  | c :: cs => (splitChars c cs s.toList).map String.mk

/-- Python `sep.join(l)` on character lists. -/
def joinSep (sep : List Char) : List (List Char) → List Char
  | [] => []
  | [x] => x
  | x :: y :: xs => x ++ sep ++ joinSep sep (y :: xs)

/-- Python `sep.join(l)`. -/
def pyJoin (sep : String) (l : List String) : String :=
  String.mk (joinSep sep.toList (l.map String.toList))

/-! ## Python integer parsing (`int`) -/

/-- Value of a digit character in a given base (Python accepts `0-9`,
`a-z`, `A-Z`, provided the value is below the base). -/
def digitValInBase (base : Nat) (c : Char) : Option Nat :=
  let v : Option Nat :=
    if '0' ≤ c ∧ c ≤ '9' then some (c.toNat - '0'.toNat)
    else if 'a' ≤ c ∧ c ≤ 'z' then some (c.toNat - 'a'.toNat + 10)
    else if 'A' ≤ c ∧ c ≤ 'Z' then some (c.toNat - 'A'.toNat + 10)
    else Option.none
  match v with
  | some n => if n < base then some n else Option.none
  | Option.none => Option.none

/-- Parse a digit string (most significant first) in the given base. -/
def parseDigitsAux (base : Nat) : List Char → Nat → Option Nat
  | [], acc => some acc
  | c :: cs, acc =>
    match digitValInBase base c with
    | some v => parseDigitsAux base cs (acc * base + v)
    | Option.none => Option.none

/-- A non-empty all-digit string in the given base, or `none`. -/
def parseDigits (base : Nat) (cs : List Char) : Option Nat :=
  match cs with
  | [] => Option.none
  | _ :: _ => parseDigitsAux base cs 0

/-- Strip one optional leading sign; return (negative?, rest). -/
def splitSign (cs : List Char) : Bool × List Char :=
  match cs with
  | [] => (false, [])
  | c :: rest =>
    if c = '-' then (true, rest)
    else if c = '+' then (false, rest)
    else (false, c :: rest)

/-- Python 2 `int(s)` (base 10): optional surrounding whitespace,
optional sign, then a non-empty decimal digit string. (The source is
Python 2 — `print` statement, `send` of a `str` — so there are no
digit-group underscores.) -/
def pyIntDec (s : String) : Option Int :=
  let (neg, ds) := splitSign (stripChars s.toList)
  (parseDigits 10 ds).map (fun n => if neg then -(n : Int) else (n : Int))

/-- Python 2 `int(s, base=0)`: optional whitespace and sign, then the
base is chosen from the literal's prefix — `0x`/`0X` hexadecimal,
`0o`/`0O` octal, `0b`/`0B` binary; any other literal with a bare
leading zero is legacy C-style octal (`int('010', 0) == 8`, and `'0'`
alone is `0`); otherwise decimal. -/
def pyIntBase0 (s : String) : Option Int :=
  let (neg, ds) := splitSign (stripChars s.toList)
  let mag : Option Nat :=
    match ds with
    | '0' :: x :: rest =>
      if x = 'x' ∨ x = 'X' then parseDigits 16 rest
      else if x = 'o' ∨ x = 'O' then parseDigits 8 rest
      else if x = 'b' ∨ x = 'B' then parseDigits 2 rest
      else parseDigits 8 (x :: rest)
    | ['0'] => some 0
    | _ => parseDigits 10 ds
  mag.map (fun n => if neg then -(n : Int) else (n : Int))

/-! ## Request encoding (`_SaleaeSocket.request`, send half) -/

/-- A Python value passed as a `request` argument: `None`, an `int`, a
`str`, or a (possibly nested) `list` of such values. -/
inductive Param where
  | none : Param
  | int (n : Int) : Param
  | str (s : String) : Param
  | list (ps : List Param) : Param
deriving Repr

mutual
/-- `filter_param` from `request`: `None` → `''`; a `list` → its elements
rendered and comma-joined recursively; otherwise `str(param)`. -/
def filter_param : Param → String
  | .none => ""
  | .int n => toString n
  | .str s => s
  | .list ps => pyJoin "," (filterParams ps)
/-- `filter_param` mapped over the elements of a `list` argument. -/
def filterParams : List Param → List String
  | [] => []
  | p :: ps => filter_param p :: filterParams ps
end

/-- The byte buffer `request` sends:
`''.join([cmd, ',' if params else '', params, '\0'])` where
`params = ','.join(filter_param(param) for param in args)`. -/
def encodeRequest (cmd : String) (args : List Param) : String :=
  let params := pyJoin "," (args.map filter_param)
  cmd ++ (if params = "" then "" else ",") ++ params ++ "\x00"

/-! ## Response handling (`request`, receive half) -/

/-- The Python exceptions the client can raise while handling a call. -/
inductive SalError where
  /-- `NAKError` -/
  | nak : SalError
  /-- `ResponseError msg` -/
  | responseError (msg : String) : SalError
  /-- `ValueError msg` (bad `int()` literal, bad unpack, `.index` miss,
  bad trigger value) -/
  | valueError (msg : String) : SalError
  /-- `IndexError` (list index / `pop` on an empty list) -/
  | indexError : SalError
deriving Repr, DecidableEq

/-- The status-classification step of `request`: `response.pop()` the
last line (an empty list raises `IndexError`), raise `NAKError` on
`'NAK'`, `ResponseError` on anything but `'ACK'`, and otherwise return
the remaining lines. -/
def classifyResponse (lines : List String) : Except SalError (List String) :=
  match lines.getLast? with
  | Option.none => .error .indexError
  | some result =>
    if result = "NAK" then .error .nak
    else if result ≠ "ACK" then
      .error (.responseError "Response neither \x22ACK\x22 nor \x22NAK\x22")
    else .ok (lines.dropLast)

/-- The receive half of `request`, as a function of the byte buffer
returned by `self._sock.recv(_BUFSIZE)`:
`response = buf.split('\n')` then status classification. -/
def request (buf : String) : Except SalError (List String) :=
  classifyResponse (pySplit "\n" buf)

/-! ## Command catalog -/

/-- Trigger tokens accepted by `set_trigger`:
`param in (None, 'high', 'low', 'negedge', 'posedge')`. -/
def validTriggerParam (p : Option String) : Bool :=
  match p with
  | Option.none => true
  | some s => s = "high" ∨ s = "low" ∨ s = "negedge" ∨ s = "posedge"

/-- Edge-trigger tokens: `param in ('negedge', 'posedge')`. -/
def isEdgeParam (p : Option String) : Bool :=
  match p with
  | Option.none => false
  | some s => s = "negedge" ∨ s = "posedge"

/-- The validation loop of `set_trigger`, with the `edge` flag threaded
through; an `.error` is the message of the `ValueError` raised. -/
def checkTriggers : List (Option String) → Bool → Except String Unit
  | [], _ => .ok ()
  | p :: ps, edge =>
    if validTriggerParam p then
      if isEdgeParam p then
        if edge then .error "Cannot have more than one edge trigger"
        else checkTriggers ps true
      else checkTriggers ps edge
    else .error "Trigger values must be high|low|negedge|posedge"

/-- A trigger entry as the `Param` that `request` receives
(`None` stays `None`, a token is a `str`). -/
def triggerParam (p : Option String) : Param :=
  match p with
  | Option.none => Param.none
  | some s => Param.str s

/-- `set_trigger(params)` up to the point bytes are written: either the
`ValueError` message raised before any I/O, or the frame
`request('set_trigger', *params)` sends. -/
def set_trigger (params : List (Option String)) : Except String String :=
  (checkTriggers params false).map
    (fun _ => encodeRequest "set_trigger" (params.map triggerParam))

/-- One line of `get_all_sample_rates`:
`(digital, analog) = line.split(', ')` (a `ValueError` if the split is
not exactly two fields), then `int(...)` on both. -/
def parseSampleRateLine (line : String) : Except SalError (Int × Int) :=
  match pySplit ", " line with
  | [d, a] =>
    match pyIntDec d, pyIntDec a with
    | some dv, some av => .ok (dv, av)
    | _, _ => .error (.valueError "invalid literal for int() with base 10")
  | _ => .error (.valueError "unpack")

/-- The accumulation loop of `get_all_sample_rates`: parse each line in
order; the first exception aborts, discarding any partial list. -/
def parseSampleRateLines : List String → Except SalError (List (Int × Int))
  | [] => .ok []
  | l :: ls => do
    let r ← parseSampleRateLine l
    let rs ← parseSampleRateLines ls
    .ok (r :: rs)

/-- `get_all_sample_rates()` as a function of the response buffer. -/
def get_all_sample_rates (buf : String) : Except SalError (List (Int × Int)) := do
  let response ← request buf
  parseSampleRateLines response

/-- A connected-device record as built by `get_connected_devices`. -/
structure Device where
  index : Int
  name : String
  type : String
  device_id : Int
  active : Bool
deriving Repr, DecidableEq

/-- One line of `get_connected_devices`: split on `', '`, raise
`ResponseError` on fewer than 4 fields, otherwise build the record;
`active` is `len(fields) == 5 and fields[4] == 'ACTIVE'`. -/
def parseDeviceLine (line : String) : Except SalError Device :=
  let fields := pySplit ", " line
  if fields.length < 4 then
    .error (.responseError "get_connected_devices returned < 4 fields")
  else
    match pyIntDec fields[0]!, pyIntBase0 fields[3]! with
    | some i, some d =>
      .ok { index := i, name := fields[1]!, type := fields[2]!,
            device_id := d,
            active := fields.length = 5 ∧ fields[4]! = "ACTIVE" }
    | _, _ => .error (.valueError "invalid literal for int()")

/-- The accumulation loop of `get_connected_devices`: parse each line in
order; the first exception aborts, discarding any partial list. -/
def parseDeviceLines : List String → Except SalError (List Device)
  | [] => .ok []
  | l :: ls => do
    let d ← parseDeviceLine l
    let ds ← parseDeviceLines ls
    .ok (d :: ds)

/-- `get_connected_devices()` as a function of the response buffer. -/
def get_connected_devices (buf : String) : Except SalError (List Device) := do
  let lines ← request buf
  parseDeviceLines lines

/-- `get_performance()`: `int(self.request('get_performance')[0])`. -/
def get_performance (buf : String) : Except SalError Int := do
  let lines ← request buf
  match lines with
  | [] => .error .indexError
  | l :: _ =>
    match pyIntDec l with
    | some v => .ok v
    | Option.none => .error (.valueError "invalid literal for int() with base 10")

/-- `get_capture_pretrigger_buffer_size()`:
`int(self.request('get_capture_pretrigger_buffer_size')[0])`. -/
def get_capture_pretrigger_buffer_size (buf : String) : Except SalError Int := do
  let lines ← request buf
  match lines with
  | [] => .error .indexError
  | l :: _ =>
    match pyIntDec l with
    | some v => .ok v
    | Option.none => .error (.valueError "invalid literal for int() with base 10")

/-- Python `list.index(x)`: the index of the first occurrence of `x`, or
`none` (Python raises `ValueError`) when absent. -/
def pyIndex (x : String) : List String → Option Nat
  | [] => Option.none
  | y :: ys => if y = x then some 0 else (pyIndex x ys).map (· + 1)

/-- `get_active_channels()`: split the first payload line on `','`,
strip each field, find `'analog_channels'` (`.index` raises `ValueError`
when absent), `int()`-parse everything strictly between the first field
and the marker as digital and everything after the marker as analog. -/
def get_active_channels (buf : String) : Except SalError (List Int × List Int) := do
  let lines ← request buf
  match lines with
  | [] => .error .indexError
  | l :: _ =>
    let response := (pySplit "," l).map pyStrip
    match pyIndex "analog_channels" response with
    | Option.none => .error (.valueError "analog_channels is not in list")
    | some analog_pos =>
      match ((response.take analog_pos).drop 1).mapM pyIntDec,
            (response.drop (analog_pos + 1)).mapM pyIntDec with
      | some digital, some analog => .ok (digital, analog)
      | _, _ => .error (.valueError "invalid literal for int() with base 10")

/-- `capture()`: a bare request, payload discarded. -/
def capture (buf : String) : Except SalError Unit :=
  (request buf).map (fun _ => ())

/-- `capture_to_file(file_path)`: a bare request, payload discarded. -/
def capture_to_file (_file_path : String) (buf : String) : Except SalError Unit :=
  (request buf).map (fun _ => ())

/-- `stop_capture()`: the one call that catches `NAKError` (meaning
"no data after the capture") and returns normally. -/
def stop_capture (buf : String) : Except SalError Unit :=
  match request buf with
  | .error .nak => .ok ()
  | .error e => .error e
  | .ok _ => .ok ()

/-- `is_processing_complete()`:
`True if self.request('is_processing_complete')[0] == 'TRUE' else False`. -/
def is_processing_complete (buf : String) : Except SalError Bool := do
  let lines ← request buf
  match lines with
  | [] => .error .indexError
  | l :: _ => .ok (l = "TRUE")

/-- `set_num_samples(samples)`: a plain request, payload discarded. -/
def set_num_samples (_samples : Int) (buf : String) : Except SalError Unit :=
  (request buf).map (fun _ => ())

/-- `set_sample_rate(digital, analog)`: a plain request. -/
def set_sample_rate (_digital _analog : Int) (buf : String) : Except SalError Unit :=
  (request buf).map (fun _ => ())

/-- `set_performance(performance)`: a plain request. -/
def set_performance (_performance : Int) (buf : String) : Except SalError Unit :=
  (request buf).map (fun _ => ())

/-- `set_capture_pretrigger_buffer_size(size)`: a plain request. -/
def set_capture_pretrigger_buffer_size (_size : Int) (buf : String) :
    Except SalError Unit :=
  (request buf).map (fun _ => ())

/-- `select_active_device(index)`: a plain request. -/
def select_active_device (_index : Int) (buf : String) : Except SalError Unit :=
  (request buf).map (fun _ => ())

/-- `set_active_channels(digital, analog)`: a plain request. -/
def set_active_channels (_digital _analog : List Int) (buf : String) :
    Except SalError Unit :=
  (request buf).map (fun _ => ())

/-- `reset_active_channels()`: a plain request. -/
def reset_active_channels (buf : String) : Except SalError Unit :=
  (request buf).map (fun _ => ())

/-! ## Lemmas about the Python string primitives -/

theorem splitCharsF_congr (s0 : Char) (srest : List Char) :
    ∀ (f1 f2 : Nat) (cs : List Char), cs.length ≤ f1 → cs.length ≤ f2 →
      splitCharsF s0 srest f1 cs = splitCharsF s0 srest f2 cs := by
  intro f1
  induction f1 with
  | zero =>
    intro f2 cs h1 _
    have hcs : cs = [] := List.eq_nil_of_length_eq_zero (Nat.le_zero.mp h1)
    subst hcs
    cases f2 <;> rfl
  | succ f ih =>
    intro f2 cs h1 h2
    cases cs with
    | nil => cases f2 <;> rfl
    | cons c cs =>
      cases f2 with
      | zero => exact absurd h2 (by simp)
      | succ f2 =>
        have hc : cs.length ≤ f := by
          simpa using h1
        have hc2 : cs.length ≤ f2 := by
          simpa using h2
        have hd : (cs.drop srest.length).length ≤ f :=
          le_trans (by simp) hc
        have hd2 : (cs.drop srest.length).length ≤ f2 :=
          le_trans (by simp) hc2
        simp only [splitCharsF]
        rw [ih f2 cs hc hc2, ih f2 (cs.drop srest.length) hd hd2]

/-- One-step unfolding of `splitChars` on a non-empty input. -/
theorem splitChars_cons (s0 : Char) (srest : List Char) (c : Char) (cs : List Char) :
    splitChars s0 srest (c :: cs) =
      if (s0 :: srest).isPrefixOf (c :: cs) then
        [] :: splitChars s0 srest (cs.drop srest.length)
      else
        match splitChars s0 srest cs with
        | [] => [[c]]
        | g :: gs => (c :: g) :: gs := by
  show splitCharsF s0 srest (cs.length + 1) (c :: cs) = _
  simp only [splitCharsF]
  rw [splitCharsF_congr s0 srest cs.length (cs.drop srest.length).length
    (cs.drop srest.length) (by simp) le_rfl]
  rfl

theorem splitChars_ne_nil (s0 : Char) (srest cs : List Char) :
    splitChars s0 srest cs ≠ [] := by
  match cs with
  | [] => simp [splitChars, splitCharsF]
  | c :: cs =>
    rw [splitChars_cons]
    split
    · simp
    · split <;> simp

theorem splitChars_of_not_mem (s0 : Char) (srest : List Char) :
    ∀ x : List Char, s0 ∉ x → splitChars s0 srest x = [x] := by
  intro x
  induction x with
  | nil => intro _; rfl
  | cons a x ih =>
    intro h
    have ha : ¬ s0 = a := fun e => h (e ▸ List.mem_cons_self a x)
    have hx : s0 ∉ x := fun hm => h (List.mem_cons_of_mem a hm)
    have hpre : ((s0 :: srest).isPrefixOf (a :: x)) = false := by
      simp [List.isPrefixOf, ha]
    rw [splitChars_cons]
    simp only [hpre, Bool.false_eq_true, if_false]
    rw [ih hx]

theorem splitChars_append (s0 : Char) (srest : List Char) :
    ∀ (x y : List Char), s0 ∉ x →
      splitChars s0 srest (x ++ s0 :: (srest ++ y)) =
        x :: splitChars s0 srest y := by
  intro x
  induction x with
  | nil =>
    intro y _
    have hpre : ((s0 :: srest).isPrefixOf (s0 :: (srest ++ y))) = true := by
      simp only [List.isPrefixOf, beq_self_eq_true, Bool.true_and]
      simp [List.isPrefixOf_iff_prefix]
    rw [List.nil_append, splitChars_cons]
    simp only [hpre, if_true]
    rw [List.drop_left]
  | cons a x ih =>
    intro y h
    have ha : ¬ s0 = a := fun e => h (e ▸ List.mem_cons_self a x)
    have hx : s0 ∉ x := fun hm => h (List.mem_cons_of_mem a hm)
    have hpre : ((s0 :: srest).isPrefixOf (a :: (x ++ s0 :: (srest ++ y)))) = false := by
      simp [List.isPrefixOf, ha]
    rw [List.cons_append, splitChars_cons]
    simp only [hpre, Bool.false_eq_true, if_false]
    rw [ih y hx]

/-- Splitting a one-line payload followed by the `ACK` status line. -/
theorem pySplit_line_ack (line : String) (h : '\n' ∉ line.toList) :
    pySplit "\n" (line ++ "\nACK") = [line, "ACK"] := by
  show (splitChars '\n' [] (line ++ "\nACK").toList).map String.mk = [line, "ACK"]
  have hdata : (line ++ "\nACK").toList = line.toList ++ '\n' :: ([] ++ "ACK".toList) := by
    simp [String.toList, String.data_append]
  rw [hdata, splitChars_append '\n' [] line.toList "ACK".toList h,
    splitChars_of_not_mem '\n' [] "ACK".toList (by decide)]
  simp [String.toList]

/-- The receive half of `request` on a one-line payload plus `ACK`. -/
theorem request_line_ack (line : String) (h : '\n' ∉ line.toList) :
    request (line ++ "\nACK") = .ok [line] := by
  rw [request, pySplit_line_ack line h]
  rfl

/-! ## Claim C1 — status classification -/

/-- C1 (counterexample): classifying an empty line sequence is a pop
from an empty list, i.e. an `IndexError` — not the `MalformedResponse`
(`ResponseError`) the claim states. -/
theorem spec_C1_counterexample :
    classifyResponse [] = Except.error SalError.indexError := rfl

/-- C1 (amended): for every decoded (hence non-empty) line sequence, a
last line `"ACK"` is Acknowledged with the preceding lines as payload, a
last line `"NAK"` raises `NAKError` with no payload, and any other last
line raises `ResponseError`; classifying an empty sequence raises
`IndexError` (not `ResponseError`), but decoding never produces an empty
sequence. -/
theorem spec_C1 (lines : List String) (l : String) (h : lines.getLast? = some l) :
    (l = "ACK" → classifyResponse lines = .ok lines.dropLast)
    ∧ (l = "NAK" → classifyResponse lines = .error .nak)
    ∧ (l ≠ "ACK" → l ≠ "NAK" →
        classifyResponse lines =
          .error (.responseError "Response neither \x22ACK\x22 nor \x22NAK\x22"))
    ∧ (∀ buf : String, pySplit "\n" buf ≠ []) := by
  refine ⟨?_, ?_, ?_, ?_⟩
  · intro hl
    simp [classifyResponse, h, hl]
  · intro hl
    simp [classifyResponse, h, hl]
  · intro h1 h2
    simp [classifyResponse, h, h1, h2]
  · intro buf
    show (splitChars '\n' [] buf.toList).map String.mk ≠ []
    simp [splitChars_ne_nil]

/-- C1 (witness): the spec's classification test vector. -/
theorem spec_C1_witness :
    classifyResponse ["x", "ACK"] = Except.ok ["x"]
    ∧ classifyResponse ["NAK"] = Except.error SalError.nak
    ∧ classifyResponse ["y", "z", "MAYBE"] =
        Except.error (SalError.responseError
          "Response neither \x22ACK\x22 nor \x22NAK\x22") :=
  ⟨(spec_C1 ["x", "ACK"] "ACK" (by decide)).1 rfl,
   (spec_C1 ["NAK"] "NAK" (by decide)).2.1 rfl,
   (spec_C1 ["y", "z", "MAYBE"] "MAYBE" (by decide)).2.2.1
     (by decide) (by decide)⟩

/-! ## Claim C8 — empty receive buffer -/

/-- C8 (counterexample): Python `''.split('\n')` is `['']`, a one-element
sequence, not the empty sequence the claim states. -/
theorem spec_C8_counterexample :
    pySplit "\n" "" = [""] ∧ pySplit "\n" "" ≠ [] := by
  exact ⟨rfl, by decide⟩

/-- C8 (amended): decoding an empty received buffer produces a single
empty line, and the exchange fails with `ResponseError` (Malformed) —
the empty candidate status line being neither `"ACK"` nor `"NAK"` —
never Acknowledged or NegativeAcknowledged. -/
theorem spec_C8 :
    pySplit "\n" "" = [""]
    ∧ request "" =
        Except.error (SalError.responseError
          "Response neither \x22ACK\x22 nor \x22NAK\x22") :=
  ⟨rfl, rfl⟩

/-! ## Claim C5 — stop_capture remaps NAK -/

/-- C5: when the device replies NAK, `stop_capture` returns normally
("no data"), while every other catalog operation propagates the
`NAKError`. -/
theorem spec_C5 (buf : String) (h : request buf = .error .nak) :
    stop_capture buf = .ok ()
    ∧ capture buf = .error .nak
    ∧ (∀ fp, capture_to_file fp buf = .error .nak)
    ∧ get_all_sample_rates buf = .error .nak
    ∧ get_connected_devices buf = .error .nak
    ∧ get_performance buf = .error .nak
    ∧ get_capture_pretrigger_buffer_size buf = .error .nak
    ∧ get_active_channels buf = .error .nak
    ∧ is_processing_complete buf = .error .nak
    ∧ (∀ n, set_num_samples n buf = .error .nak)
    ∧ (∀ d a, set_sample_rate d a buf = .error .nak)
    ∧ (∀ p, set_performance p buf = .error .nak)
    ∧ (∀ s, set_capture_pretrigger_buffer_size s buf = .error .nak)
    ∧ (∀ i, select_active_device i buf = .error .nak)
    ∧ (∀ d a, set_active_channels d a buf = .error .nak)
    ∧ reset_active_channels buf = .error .nak := by
  refine ⟨?_, ?_, fun fp => ?_, ?_, ?_, ?_, ?_, ?_, ?_, fun n => ?_,
    fun d a => ?_, fun p => ?_, fun s => ?_, fun i => ?_, fun d a => ?_, ?_⟩ <;>
    simp only [stop_capture, capture, capture_to_file, get_all_sample_rates,
      get_connected_devices, get_performance,
      get_capture_pretrigger_buffer_size, get_active_channels,
      is_processing_complete, set_num_samples, set_sample_rate,
      set_performance, set_capture_pretrigger_buffer_size,
      select_active_device, set_active_channels, reset_active_channels,
      h] <;> rfl

/-- C5 (witness): the concrete buffer `"NAK"`. -/
theorem spec_C5_witness :
    stop_capture "NAK" = Except.ok ()
    ∧ capture "NAK" = Except.error SalError.nak
    ∧ get_performance "NAK" = Except.error SalError.nak :=
  ⟨(spec_C5 "NAK" rfl).1, (spec_C5 "NAK" rfl).2.1,
   (spec_C5 "NAK" rfl).2.2.2.2.2.1⟩

/-! ## Claim C10 — single-line getters on an empty payload -/

/-- C10: an Acknowledged response with zero payload lines makes
`get_performance`, `get_capture_pretrigger_buffer_size` and
`is_processing_complete` fail with `IndexError` — the decode reads
`[0]` unconditionally — rather than return a value or a
`ResponseError`. -/
theorem spec_C10 (buf : String) (h : request buf = .ok []) :
    get_performance buf = .error .indexError
    ∧ get_capture_pretrigger_buffer_size buf = .error .indexError
    ∧ is_processing_complete buf = .error .indexError := by
  refine ⟨?_, ?_, ?_⟩ <;>
    simp only [get_performance, get_capture_pretrigger_buffer_size,
      is_processing_complete, h] <;> rfl

/-- C10 (witness): the buffer `"ACK"` is Acknowledged with an empty
payload. -/
theorem spec_C10_witness :
    get_performance "ACK" = Except.error SalError.indexError
    ∧ get_capture_pretrigger_buffer_size "ACK" = Except.error SalError.indexError
    ∧ is_processing_complete "ACK" = Except.error SalError.indexError :=
  spec_C10 "ACK" rfl

/-! ## Claims C3 and C9 — set_trigger validation -/

theorem checkTriggers_ok_iff :
    ∀ (ps : List (Option String)) (edge : Bool),
      (∀ p ∈ ps, validTriggerParam p = true) →
      (checkTriggers ps edge = .ok () ↔
        ps.countP isEdgeParam + (if edge then 1 else 0) ≤ 1) := by
  intro ps
  induction ps with
  | nil =>
    intro edge _
    simp only [checkTriggers, List.countP_nil, Nat.zero_add]
    cases edge <;> simp
  | cons p ps ih =>
    intro edge hv
    have hp := hv p (List.mem_cons_self p ps)
    have hps : ∀ q ∈ ps, validTriggerParam q = true :=
      fun q hq => hv q (List.mem_cons_of_mem p hq)
    simp only [checkTriggers, hp, if_true]
    by_cases he : isEdgeParam p = true
    · rw [if_pos he, List.countP_cons_of_pos _ _ he]
      cases edge with
      | true =>
        simp only [if_true]
        constructor
        · intro h; exact absurd h (by simp)
        · intro h; omega
      | false =>
        simp only [Bool.false_eq_true, if_false]
        rw [ih true hps]
        simp
    · rw [if_neg he, List.countP_cons_of_neg _ _ (by simpa using he), ih edge hps]

/-- C3: over trigger specification lists (entries drawn from
`{None, 'high', 'low', 'negedge', 'posedge'}`), `set_trigger` raises
`ValueError` before any bytes are sent iff more than one entry is an
edge type; in particular the spec's two test vectors. An `.error`
result carries no frame — nothing is written. -/
theorem spec_C3 (params : List (Option String))
    (hvalid : ∀ p ∈ params, validTriggerParam p = true) :
    ((∃ msg, set_trigger params = .error msg) ↔ 1 < params.countP isEdgeParam)
    ∧ ((∃ frame, set_trigger params = .ok frame) ↔ params.countP isEdgeParam ≤ 1)
    ∧ set_trigger [some "high", some "posedge", some "low", Option.none, some "negedge"]
        = .error "Cannot have more than one edge trigger"
    ∧ set_trigger [some "high", some "posedge", some "low", Option.none]
        = .ok "set_trigger,high,posedge,low,\x00" := by
  have h := checkTriggers_ok_iff params false hvalid
  simp only [Bool.false_eq_true, if_false, Nat.add_zero] at h
  refine ⟨?_, ?_, rfl, rfl⟩
  · cases hck : checkTriggers params false with
    | ok u =>
      cases u
      constructor
      · intro ⟨msg, hmsg⟩
        rw [set_trigger, hck] at hmsg
        exact absurd hmsg (by simp [Except.map])
      · intro hgt
        exact absurd (h.mp hck) (by omega)
    | error m =>
      constructor
      · intro _
        by_contra hle
        have := h.mpr (by omega)
        rw [hck] at this
        exact absurd this (by simp)
      · intro _
        exact ⟨m, by rw [set_trigger, hck]; rfl⟩
  · cases hck : checkTriggers params false with
    | ok u =>
      cases u
      constructor
      · intro _
        exact h.mp hck
      · intro _
        exact ⟨encodeRequest "set_trigger" (params.map triggerParam),
          by rw [set_trigger, hck]; rfl⟩
    | error m =>
      constructor
      · intro ⟨frame, hframe⟩
        rw [set_trigger, hck] at hframe
        exact absurd hframe (by simp [Except.map])
      · intro hle
        have := h.mpr hle
        rw [hck] at this
        exact absurd this (by simp)

/-- C3 (witness): a single-edge list is accepted. -/
theorem spec_C3_witness :
    ∃ frame, set_trigger [some "posedge", Option.none] = Except.ok frame :=
  ((spec_C3 [some "posedge", Option.none] (by decide)).2.1).mpr (by decide)

theorem checkTriggers_error_of_invalid :
    ∀ (ps : List (Option String)) (edge : Bool),
      (∃ p ∈ ps, validTriggerParam p = false) →
      ∃ msg, checkTriggers ps edge = .error msg := by
  intro ps
  induction ps with
  | nil =>
    intro edge h
    simp at h
  | cons p ps ih =>
    intro edge h
    by_cases hp : validTriggerParam p = true
    · have htail : ∃ q ∈ ps, validTriggerParam q = false := by
        rcases h with ⟨q, hq, hqv⟩
        rcases List.mem_cons.mp hq with hqp | hqm
        · rw [hqp] at hqv
          rw [hp] at hqv
          cases hqv
        · exact ⟨q, hqm, hqv⟩
      simp only [checkTriggers, hp, if_true]
      by_cases he : isEdgeParam p = true
      · rw [if_pos he]
        cases edge with
        | true => exact ⟨"Cannot have more than one edge trigger", by simp⟩
        | false =>
          simpa using ih true htail
      · rw [if_neg he]
        exact ih edge htail
    · refine ⟨"Trigger values must be high|low|negedge|posedge", ?_⟩
      simp [checkTriggers, hp]

/-- C9: a trigger list containing a token outside
`{None, 'high', 'low', 'negedge', 'posedge'}` makes `set_trigger` raise
`ValueError` before any bytes are written (an `.error` result carries no
frame), so an invalid token is never sent to the device. -/
theorem spec_C9 (params : List (Option String))
    (h : ∃ p ∈ params, validTriggerParam p = false) :
    ∃ msg, set_trigger params = .error msg := by
  rcases checkTriggers_error_of_invalid params false h with ⟨m, hm⟩
  exact ⟨m, by rw [set_trigger, hm]; rfl⟩

/-- C9 (witness): an out-of-alphabet token is rejected. -/
theorem spec_C9_witness :
    ∃ msg, set_trigger [some "high", some "banana"] = Except.error msg :=
  spec_C9 [some "high", some "banana"] (by decide)

/-! ## Claim C2 — request frame encoding -/

theorem joinSep_eq_nil_iff (sep : List Char) (hsep : sep ≠ []) :
    ∀ ll : List (List Char), joinSep sep ll = [] ↔ ll = [] ∨ ll = [[]] := by
  intro ll
  match ll with
  | [] => simp [joinSep]
  | [x] => simp [joinSep]
  | x :: y :: xs =>
    simp only [joinSep, List.append_assoc]
    constructor
    · intro h
      rcases List.append_eq_nil.mp h with ⟨-, h2⟩
      rcases List.append_eq_nil.mp h2 with ⟨hs, -⟩
      exact absurd hs hsep
    · intro h
      rcases h with h | h <;> cases h

theorem not_mem_joinSep (c : Char) (sep : List Char) (hc : c ∉ sep) :
    ∀ ll : List (List Char), (∀ x ∈ ll, c ∉ x) → c ∉ joinSep sep ll := by
  intro ll
  induction ll with
  | nil => intro _; simp [joinSep]
  | cons x xs ih =>
    intro h
    have hx : c ∉ x := h x (List.mem_cons_self x xs)
    have hxs : ∀ z ∈ xs, c ∉ z := fun z hz => h z (List.mem_cons_of_mem x hz)
    cases xs with
    | nil => simpa [joinSep] using hx
    | cons y ys =>
      simp only [joinSep, List.mem_append, List.mem_cons]
      intro hmem
      rcases hmem with (hm | hm) | hm
      · exact hx hm
      · exact hc hm
      · exact (ih hxs) hm

/-- C2 (counterexample): a present argument whose rendering is empty
(`None`) produces `command + NUL` with no comma, not
`command + "," + "" + NUL` as the claim states. -/
theorem spec_C2_counterexample :
    encodeRequest "cmd" [Param.none] = "cmd\x00"
    ∧ encodeRequest "cmd" [Param.none] ≠ "cmd" ++ "," ++ "" ++ "\x00" := by
  constructor
  · rfl
  · decide

/-- C2 (amended): the frame is the command text, then a comma exactly
when the comma-joined rendered arguments are non-empty text (so not for
an absent-only argument list), then the joined arguments, then one
terminating NUL; rendering is `None` → empty, nested list →
recursive comma-join, scalar → its text; when the command and the
rendered arguments contain no NUL, the frame contains exactly one NUL
and it is the final byte. -/
theorem spec_C2 (cmd : String) (args : List Param) :
    (pyJoin "," (args.map filter_param) = "" →
      encodeRequest cmd args = cmd ++ "\x00")
    ∧ (pyJoin "," (args.map filter_param) ≠ "" →
      encodeRequest cmd args =
        cmd ++ "," ++ pyJoin "," (args.map filter_param) ++ "\x00")
    ∧ (pyJoin "," (args.map filter_param) = "" ↔
        args = [] ∨ ∃ a, args = [a] ∧ filter_param a = "")
    ∧ ('\x00' ∉ cmd.toList →
        (∀ a ∈ args, '\x00' ∉ (filter_param a).toList) →
        (encodeRequest cmd args).toList.count '\x00' = 1
        ∧ (encodeRequest cmd args).toList.getLast? = some '\x00') := by
  refine ⟨?_, ?_, ?_, ?_⟩
  · intro h
    rw [encodeRequest]
    simp only [h, if_pos rfl]
    apply String.ext
    simp [String.data_append]
  · intro h
    rw [encodeRequest]
    simp only [if_neg h]
  · cases args with
    | nil => simp [pyJoin, joinSep]
    | cons a args' =>
      cases args' with
      | nil =>
        show String.mk (joinSep [','] [(filter_param a).toList]) = "" ↔ _
        simp only [joinSep]
        constructor
        · intro h
          refine Or.inr ⟨a, rfl, ?_⟩
          have : (filter_param a).toList = ("" : String).toList := by
            rw [show (filter_param a).toList = (String.mk (filter_param a).toList).toList from rfl, h]
          exact String.ext this
        · intro h
          rcases h with h | ⟨b, hb, hfb⟩
          · cases h
          · cases hb
            rw [hfb]
            rfl
      | cons b rest =>
        constructor
        · intro h
          exfalso
          have hdata : joinSep [','] (((a :: b :: rest).map filter_param).map String.toList) = [] :=
            congrArg String.data h
          have := (joinSep_eq_nil_iff [','] (by simp) _).mp hdata
          simp at this
        · intro h
          rcases h with h | ⟨c, hc, -⟩
          · cases h
          · cases hc
  · intro hcmd hargs
    have hns : '\x00' ∉ (pyJoin "," (args.map filter_param)).toList := by
      show '\x00' ∉ joinSep [','] ((args.map filter_param).map String.toList)
      apply not_mem_joinSep '\x00' [','] (by decide)
      intro x hx
      rcases List.mem_map.mp hx with ⟨s, hs, rfl⟩
      rcases List.mem_map.mp hs with ⟨a, ha, rfl⟩
      exact hargs a ha
    constructor
    · rw [encodeRequest]
      simp only [String.toList, String.data_append, List.count_append]
      have h1 : List.count '\x00' cmd.data = 0 := List.count_eq_zero.mpr hcmd
      have h2 : List.count '\x00'
          ((if pyJoin "," (args.map filter_param) = "" then "" else ",") : String).data = 0 := by
        split <;> decide
      have h3 : List.count '\x00' (pyJoin "," (args.map filter_param)).data = 0 :=
        List.count_eq_zero.mpr hns
      rw [h1, h2, h3]
      rfl
    · rw [encodeRequest]
      show (((cmd ++ _) ++ _) ++ "\x00").data.getLast? = some '\x00'
      rw [String.data_append]
      exact List.getLast?_concat _

/-! ## Claim C4 — get_connected_devices decoding -/

/-- C4 (counterexample): on a 6-field line whose 5th field is
`"ACTIVE"`, the code sets `active = false` (it requires *exactly* 5
fields), while the claim demands `active = true` whenever a 5th field is
present and equals `"ACTIVE"`. -/
theorem spec_C4_counterexample :
    get_connected_devices "1, name, type, 2, ACTIVE, extra\nACK" =
      Except.ok [{ index := 1, name := "name", type := "type",
                   device_id := 2, active := false }] := by
  rfl

/-- C4 (amended): each payload line is split on `", "`; fewer than 4
fields raises `ResponseError` (no truncated record is returned);
otherwise the record holds integer field 0, fields 1 and 2 as text,
auto-base integer field 3, and `active` is true exactly when the line
has *exactly* 5 fields and the 5th equals `"ACTIVE"` (a 6-field line
gives `active = false` even with a 5th field of `"ACTIVE"`). -/
theorem spec_C4 (line : String) (h : '\n' ∉ line.toList) :
    ((pySplit ", " line).length < 4 →
      get_connected_devices (line ++ "\nACK") =
        .error (.responseError "get_connected_devices returned < 4 fields"))
    ∧ (∀ i d, 4 ≤ (pySplit ", " line).length →
        pyIntDec (pySplit ", " line)[0]! = some i →
        pyIntBase0 (pySplit ", " line)[3]! = some d →
        get_connected_devices (line ++ "\nACK") =
          .ok [{ index := i, name := (pySplit ", " line)[1]!,
                 type := (pySplit ", " line)[2]!, device_id := d,
                 active := (pySplit ", " line).length = 5
                   ∧ (pySplit ", " line)[4]! = "ACTIVE" }]) := by
  have hreq := request_line_ack line h
  constructor
  · intro hlen
    have hdev : parseDeviceLine line =
        .error (.responseError "get_connected_devices returned < 4 fields") := by
      simp only [parseDeviceLine]
      rw [if_pos hlen]
    show (request (line ++ "\nACK") >>= fun lines => parseDeviceLines lines) = _
    rw [hreq]
    show parseDeviceLines [line] = _
    simp only [parseDeviceLines, hdev]
    rfl
  · intro i d hlen h0 h3
    have hdev : parseDeviceLine line =
        .ok { index := i, name := (pySplit ", " line)[1]!,
              type := (pySplit ", " line)[2]!, device_id := d,
              active := (pySplit ", " line).length = 5
                ∧ (pySplit ", " line)[4]! = "ACTIVE" } := by
      simp only [parseDeviceLine]
      rw [if_neg (by omega), h0, h3]
    show (request (line ++ "\nACK") >>= fun lines => parseDeviceLines lines) = _
    rw [hreq]
    show parseDeviceLines [line] = _
    simp only [parseDeviceLines, hdev]
    rfl

/-- C4 (witness): the spec's second example line, a 4-field inactive
device with a hexadecimal device id. -/
theorem spec_C4_witness :
    get_connected_devices ("2, Logic8, LOGIC8, 0x99" ++ "\nACK") =
      Except.ok [{ index := 2, name := "Logic8", type := "LOGIC8",
                   device_id := 153, active := false }] := by
  have h := (spec_C4 "2, Logic8, LOGIC8, 0x99" (by decide)).2 2 153
    (by decide) (by decide) (by decide)
  exact h

/-- C2 (witness): `set_performance(33)` encodes with a comma and a
single trailing NUL. -/
theorem spec_C2_witness :
    encodeRequest "set_performance" [Param.int 33] =
      "set_performance" ++ "," ++ pyJoin "," ([Param.int 33].map filter_param) ++ "\x00"
    ∧ (encodeRequest "set_performance" [Param.int 33]).toList.count '\x00' = 1
    ∧ (encodeRequest "set_performance" [Param.int 33]).toList.getLast? = some '\x00' := by
  have h := spec_C2 "set_performance" [Param.int 33]
  exact ⟨h.2.1 (by decide),
    (h.2.2.2 (by decide) (by decide)).1,
    (h.2.2.2 (by decide) (by decide)).2⟩

/-! ## Claim C7 — device_id base selection -/

theorem ws_digitValInBase (base : Nat) (c : Char) (h : pyIsSpace c = true) :
    digitValInBase base c = Option.none := by
  simp only [pyIsSpace, decide_eq_true_eq] at h
  rcases h with h | h | h | h | h | h <;> subst h <;> rfl

theorem dropWhile_eq_self_of (p : Char → Bool) :
    ∀ l : List Char, (∀ c ∈ l, p c = false) → l.dropWhile p = l := by
  intro l h
  cases l with
  | nil => rfl
  | cons c l =>
    rw [List.dropWhile_cons, if_neg]
    simp [h c (List.mem_cons_self c l)]

theorem stripChars_eq_self (cs : List Char) (h : ∀ c ∈ cs, pyIsSpace c = false) :
    stripChars cs = cs := by
  rw [stripChars, dropWhile_eq_self_of pyIsSpace cs h,
    dropWhile_eq_self_of pyIsSpace cs.reverse
      (fun c hc => h c (List.mem_reverse.mp hc)),
    List.reverse_reverse]

theorem not_space_of_ge_zero (d : Char) (h : '0' ≤ d) : pyIsSpace d = false := by
  cases hb : pyIsSpace d with
  | false => rfl
  | true =>
    exfalso
    simp only [pyIsSpace, decide_eq_true_eq] at hb
    have hn : 48 ≤ d.toNat := h
    rcases hb with e | e | e | e | e | e <;> subst e <;> simp at hn

theorem not_space_of_digitVal (base : Nat) (d : Char)
    (h : (digitValInBase base d).isSome = true) : pyIsSpace d = false := by
  cases hb : pyIsSpace d with
  | false => rfl
  | true =>
    rw [ws_digitValInBase base d hb] at h
    simp at h

theorem parseDigitsAux_isSome (base : Nat) :
    ∀ cs : List Char, (∀ c ∈ cs, (digitValInBase base c).isSome = true) →
      ∀ acc : Nat, (parseDigitsAux base cs acc).isSome = true := by
  intro cs
  induction cs with
  | nil => intro _ acc; rfl
  | cons c cs ih =>
    intro h acc
    have hc := h c (List.mem_cons_self c cs)
    simp only [parseDigitsAux]
    cases hv : digitValInBase base c with
    | none => rw [hv] at hc; simp at hc
    | some v =>
      exact ih (fun d hd => h d (List.mem_cons_of_mem c hd)) _

theorem digitValInBase_dec (d : Char) (h0 : '0' ≤ d) (h9 : d ≤ '9') :
    digitValInBase 10 d = some (d.toNat - '0'.toNat) := by
  have hlt : d.toNat - '0'.toNat < 10 := by
    have a : 48 ≤ d.toNat := h0
    have b : d.toNat ≤ 57 := h9
    have h48 : ('0' : Char).toNat = 48 := rfl
    omega
  simp only [digitValInBase]
  rw [if_pos ⟨h0, h9⟩]
  show (if d.toNat - '0'.toNat < 10 then some (d.toNat - '0'.toNat)
    else Option.none) = some (d.toNat - '0'.toNat)
  rw [if_pos hlt]

/-- C7 (counterexample): `int(x, base=0)` also understands the `0b`
(and `0o`) prefixes — `"0b10"` parses as binary 2, while the claim's
"every other literal is parsed as decimal" would require a decimal
parse (which rejects `"0b10"`, and could only mean 10). -/
theorem spec_C7_counterexample :
    pyIntBase0 "0b10" = some 2
    ∧ pyIntDec "0b10" = Option.none
    ∧ ((2 : Int) ≠ 10) := by
  refine ⟨rfl, rfl, by decide⟩

/-- C7 (amended): field 3 is parsed with this Python 2 code's base-0
auto selection: a `0x` prefix is hexadecimal, a `0o` prefix octal, a
`0b` prefix binary, any other literal with a bare leading zero is
legacy C-style octal, and a literal starting with a non-zero decimal
digit is parsed as decimal (agreeing with `int(s)`). -/
theorem spec_C7 (cs : List Char) :
    (cs ≠ [] → (∀ c ∈ cs, (digitValInBase 16 c).isSome = true) →
      pyIntBase0 (String.mk ('0' :: 'x' :: cs)) =
        (parseDigits 16 cs).map (fun n => (n : Int))
      ∧ (parseDigits 16 cs).isSome = true)
    ∧ (cs ≠ [] → (∀ c ∈ cs, (digitValInBase 2 c).isSome = true) →
      pyIntBase0 (String.mk ('0' :: 'b' :: cs)) =
        (parseDigits 2 cs).map (fun n => (n : Int)))
    ∧ (cs ≠ [] → (∀ c ∈ cs, (digitValInBase 8 c).isSome = true) →
      pyIntBase0 (String.mk ('0' :: 'o' :: cs)) =
        (parseDigits 8 cs).map (fun n => (n : Int)))
    ∧ (∀ x rest, cs = x :: rest →
        ¬ (x = 'x' ∨ x = 'X') → ¬ (x = 'o' ∨ x = 'O') → ¬ (x = 'b' ∨ x = 'B') →
        (∀ c ∈ cs, pyIsSpace c = false) →
        pyIntBase0 (String.mk ('0' :: cs)) =
          (parseDigits 8 cs).map (fun n => (n : Int)))
    ∧ (∀ c cs', cs = c :: cs' → '1' ≤ c → c ≤ '9' →
        (∀ d ∈ cs, '0' ≤ d ∧ d ≤ '9') →
        pyIntBase0 (String.mk cs) = pyIntDec (String.mk cs)
        ∧ (pyIntDec (String.mk cs)).isSome = true) := by
  have hpre : ∀ (p : Char) (hp : pyIsSpace p = false) (base : Nat),
      (∀ c ∈ cs, (digitValInBase base c).isSome = true) →
      ∀ q ∈ '0' :: p :: cs, pyIsSpace q = false := by
    intro p hp base hdig q hq
    rcases List.mem_cons.mp hq with rfl | hq
    · rfl
    rcases List.mem_cons.mp hq with rfl | hq
    · exact hp
    · exact not_space_of_digitVal base q (hdig q hq)
  refine ⟨?_, ?_, ?_, ?_, ?_⟩
  · intro hne hdig
    constructor
    · show pyIntBase0 (String.mk ('0' :: 'x' :: cs)) = _
      unfold pyIntBase0
      rw [show (String.mk ('0' :: 'x' :: cs)).toList = '0' :: 'x' :: cs from rfl,
        stripChars_eq_self _ (hpre 'x' rfl 16 hdig)]
      rfl
    · cases cs with
      | nil => exact absurd rfl hne
      | cons c cs => exact parseDigitsAux_isSome 16 _ hdig 0
  · intro hne hdig
    unfold pyIntBase0
    rw [show (String.mk ('0' :: 'b' :: cs)).toList = '0' :: 'b' :: cs from rfl,
      stripChars_eq_self _ (hpre 'b' rfl 2 hdig)]
    rfl
  · intro hne hdig
    unfold pyIntBase0
    rw [show (String.mk ('0' :: 'o' :: cs)).toList = '0' :: 'o' :: cs from rfl,
      stripChars_eq_self _ (hpre 'o' rfl 8 hdig)]
    rfl
  · intro x rest hcs hx ho hb hws
    subst hcs
    have hws0 : ∀ c ∈ '0' :: x :: rest, pyIsSpace c = false := by
      intro c hc
      rcases List.mem_cons.mp hc with rfl | hc
      · rfl
      · exact hws c hc
    unfold pyIntBase0
    rw [show (String.mk ('0' :: x :: rest)).toList = '0' :: x :: rest from rfl,
      stripChars_eq_self _ hws0]
    show ((if x = 'x' ∨ x = 'X' then parseDigits 16 rest
        else if x = 'o' ∨ x = 'O' then parseDigits 8 rest
        else if x = 'b' ∨ x = 'B' then parseDigits 2 rest
        else parseDigits 8 (x :: rest)).map (fun n => (n : Int))) =
      (parseDigits 8 (x :: rest)).map (fun n => (n : Int))
    rw [if_neg hx, if_neg ho, if_neg hb]
  · intro c cs' hcs h1 h9 hall
    subst hcs
    have hws : ∀ d ∈ c :: cs', pyIsSpace d = false :=
      fun d hd => not_space_of_ge_zero d (hall d hd).1
    have hcm : ¬ c = '-' := by
      intro e; subst e; exact absurd h1 (by decide)
    have hcp : ¬ c = '+' := by
      intro e; subst e; exact absurd h1 (by decide)
    have hc0 : ¬ c = '0' := by
      intro e; subst e; exact absurd h1 (by decide)
    have hsign : splitSign (c :: cs') = (false, c :: cs') := by
      simp only [splitSign]
      rw [if_neg hcm, if_neg hcp]
    constructor
    · unfold pyIntBase0 pyIntDec
      rw [show (String.mk (c :: cs')).toList = c :: cs' from rfl,
        stripChars_eq_self _ hws, hsign]
      show (match c :: cs' with
        | '0' :: x :: rest =>
          if x = 'x' ∨ x = 'X' then parseDigits 16 rest
          else if x = 'o' ∨ x = 'O' then parseDigits 8 rest
          else if x = 'b' ∨ x = 'B' then parseDigits 2 rest
          else parseDigits 8 (x :: rest)
        | ['0'] => some 0
        | _ => parseDigits 10 (c :: cs')).map (fun n => (n : Int)) =
        (parseDigits 10 (c :: cs')).map (fun n => (n : Int))
      congr 1
      split
      · rename_i x rest heq
        injection heq with e1 e2
        exact absurd e1 hc0
      · rename_i heq
        injection heq with e1 e2
        exact absurd e1 hc0
      · rfl
    · unfold pyIntDec
      rw [show (String.mk (c :: cs')).toList = c :: cs' from rfl,
        stripChars_eq_self _ hws, hsign]
      have hsome : (parseDigitsAux 10 (c :: cs') 0).isSome = true :=
        parseDigitsAux_isSome 10 _
          (fun d hd => by
            rw [digitValInBase_dec d (hall d hd).1 (hall d hd).2]; rfl) 0
      cases hv : parseDigitsAux 10 (c :: cs') 0 with
      | none => rw [hv] at hsome; simp at hsome
      | some v => simp [parseDigits, hv]

/-- C7 (witness): a hexadecimal, a legacy-octal and a decimal
literal. -/
theorem spec_C7_witness :
    pyIntBase0 (String.mk ['0', 'x', '1']) = some 1
    ∧ pyIntBase0 (String.mk ['0', '1', '0']) = some 8
    ∧ pyIntBase0 (String.mk ['4', '2']) = pyIntDec (String.mk ['4', '2']) := by
  refine ⟨?_, ?_, ?_⟩
  · rw [((spec_C7 ['1']).1 (by decide) (by decide)).1]
    rfl
  · rw [(spec_C7 ['1', '0']).2.2.2.1 '1' ['0'] rfl (by decide) (by decide)
      (by decide) (by decide)]
    rfl
  · exact ((spec_C7 ['4', '2']).2.2.2.2 '4' ['2'] rfl (by decide) (by decide)
      (by decide)).1

/-! ## Claim C6 — get_active_channels decoding -/

theorem stripChars_cons_space (x : List Char) :
    stripChars (' ' :: x) = stripChars x := by
  show ((((' ' :: x).dropWhile pyIsSpace).reverse.dropWhile pyIsSpace)).reverse = _
  rw [List.dropWhile_cons, if_pos (show pyIsSpace ' ' = true from rfl)]
  rfl

theorem strip_space_tok (s : String)
    (hws : ∀ c ∈ s.toList, pyIsSpace c = false) :
    pyStrip (String.mk (' ' :: s.toList)) = s := by
  show String.mk (stripChars (' ' :: s.toList)) = s
  rw [stripChars_cons_space, stripChars_eq_self _ hws]
  rfl

/-- Splitting a `", "`-join on `","`: the first part comes back as is,
every later part with the separator's space still attached. -/
theorem splitChars_join :
    ∀ (xs : List (List Char)) (x : List Char), ',' ∉ x → (∀ y ∈ xs, ',' ∉ y) →
      splitChars ',' [] (joinSep [',', ' '] (x :: xs)) =
        x :: xs.map (fun y => ' ' :: y) := by
  intro xs
  induction xs with
  | nil =>
    intro x hx _
    show splitChars ',' [] x = [x]
    rw [splitChars_of_not_mem ',' [] x hx]
  | cons y ys ih =>
    intro x hx hys
    have hy : ',' ∉ y := hys y (List.mem_cons_self y ys)
    have hys' : ∀ z ∈ ys, ',' ∉ z := fun z hz => hys z (List.mem_cons_of_mem y hz)
    have hshape : joinSep [',', ' '] (x :: y :: ys) =
        x ++ ',' :: ([] ++ (' ' :: joinSep [',', ' '] (y :: ys))) := by
      show x ++ [',', ' '] ++ joinSep [',', ' '] (y :: ys) = _
      simp
    rw [hshape, splitChars_append ',' [] x _ hx, splitChars_cons]
    rw [if_neg (by simp [List.isPrefixOf])]
    rw [ih y hy hys']
    rfl

/-- `list.index` on a list that contains the sought element exactly
after a prefix free of it. -/
theorem pyIndex_append (x : String) :
    ∀ (l1 l2 : List String), x ∉ l1 →
      pyIndex x (l1 ++ x :: l2) = some l1.length := by
  intro l1
  induction l1 with
  | nil =>
    intro l2 _
    show pyIndex x (x :: l2) = some 0
    simp [pyIndex]
  | cons a l1 ih =>
    intro l2 h
    have ha : ¬ a = x := fun e => h (e ▸ List.mem_cons_self a l1)
    show pyIndex x (a :: (l1 ++ x :: l2)) = some (l1.length + 1)
    simp only [pyIndex]
    rw [if_neg ha, ih l2 (fun hm => h (List.mem_cons_of_mem a hm))]
    rfl

/-- Splitting a `", "`-joined line on `","` and stripping each field
recovers the fields, when the fields are comma-free and
whitespace-free. -/
theorem response_of_parts (p0 : String) (ps : List String)
    (hcomma : ∀ s ∈ p0 :: ps, ',' ∉ s.toList)
    (hws : ∀ s ∈ p0 :: ps, ∀ c ∈ s.toList, pyIsSpace c = false) :
    (pySplit "," (pyJoin ", " (p0 :: ps))).map pyStrip = p0 :: ps := by
  show ((splitChars ',' [] (joinSep [',', ' ']
    (p0.toList :: ps.map String.toList))).map String.mk).map pyStrip = p0 :: ps
  rw [splitChars_join (ps.map String.toList) p0.toList
    (hcomma p0 (List.mem_cons_self p0 ps))
    (by
      intro y hy
      rcases List.mem_map.mp hy with ⟨s, hs, rfl⟩
      exact hcomma s (List.mem_cons_of_mem p0 hs))]
  simp only [List.map_cons, List.map_map]
  congr 1
  · show pyStrip (String.mk p0.toList) = p0
    show String.mk (stripChars p0.toList) = p0
    rw [stripChars_eq_self _ (hws p0 (List.mem_cons_self p0 ps))]
    rfl
  · show ps.map (fun s => pyStrip (String.mk (' ' :: s.toList))) = ps
    rw [List.map_congr_left (fun s hs =>
      strip_space_tok s (hws s (List.mem_cons_of_mem p0 hs)))]
    exact List.map_id ps

/-- The response-processing of `get_active_channels` on a one-line
payload, with the request plumbing discharged. -/
theorem get_active_channels_line (line : String) (h : '\n' ∉ line.toList) :
    get_active_channels (line ++ "\nACK") =
      (match pyIndex "analog_channels" ((pySplit "," line).map pyStrip) with
       | Option.none => .error (.valueError "analog_channels is not in list")
       | some analog_pos =>
         match (((((pySplit "," line).map pyStrip).take analog_pos).drop 1).mapM pyIntDec),
               ((((pySplit "," line).map pyStrip).drop (analog_pos + 1)).mapM pyIntDec) with
         | some digital, some analog => .ok (digital, analog)
         | _, _ => .error (.valueError "invalid literal for int() with base 10")) := by
  have hreq := request_line_ack line h
  show (request (line ++ "\nACK") >>= fun lines =>
    match lines with
    | [] => Except.error SalError.indexError
    | l :: _ =>
      match pyIndex "analog_channels" ((pySplit "," l).map pyStrip) with
      | Option.none => .error (.valueError "analog_channels is not in list")
      | some analog_pos =>
        match (((((pySplit "," l).map pyStrip).take analog_pos).drop 1).mapM pyIntDec),
              ((((pySplit "," l).map pyStrip).drop (analog_pos + 1)).mapM pyIntDec) with
        | some digital, some analog => .ok (digital, analog)
        | _, _ => .error (.valueError "invalid literal for int() with base 10")) = _
  rw [hreq]
  rfl

/-- C6 (counterexample): the claim's own example line leads the code to
`int('digital_channels')` — the slice `response[1:analog_pos]` includes
the `digital_channels` marker — so the call raises `ValueError` instead
of returning `([0,1,2], [4,5])`. -/
theorem spec_C6_counterexample :
    get_active_channels
        "active_channels, digital_channels, 0, 1, 2, analog_channels, 4, 5\nACK" =
      Except.error (SalError.valueError "invalid literal for int() with base 10") := by
  rfl

/-- C6 (amended): the single payload line is split on commas and each
field trimmed; the literal token `analog_channels` is located; every
field strictly between the first field and the token is `int()`-parsed
as a digital channel and every field after the token as an analog
channel (a non-integer field there raises `ValueError`); a line of the
shape `digital_channels, d..., analog_channels, a...` with integer
channel fields decodes to exactly those channel lists — and in
particular `"digital_channels, 0, 1, 2, analog_channels, 4, 5"` yields
`([0,1,2], [4,5])`. The spec's example line with a leading
`active_channels` field instead makes the decode fail (see the
counterexample). -/
theorem spec_C6 (dtoks atoks : List String) (ds as : List Int)
    (hd : ∀ s ∈ dtoks, ∀ c ∈ s.toList, '0' ≤ c ∧ c ≤ '9')
    (ha : ∀ s ∈ atoks, ∀ c ∈ s.toList, '0' ≤ c ∧ c ≤ '9')
    (hds : dtoks.mapM pyIntDec = some ds)
    (has : atoks.mapM pyIntDec = some as) :
    get_active_channels
      (pyJoin ", " ("digital_channels" :: (dtoks ++ "analog_channels" :: atoks))
        ++ "\nACK") = .ok (ds, as)
    ∧ get_active_channels "digital_channels, 0, 1, 2, analog_channels, 4, 5\nACK"
      = .ok ([0, 1, 2], [4, 5]) := by
  refine ⟨?_, by rfl⟩
  have hptok : ∀ s ∈ "digital_channels" :: (dtoks ++ "analog_channels" :: atoks),
      (',' ∉ s.toList) ∧ (∀ c ∈ s.toList, pyIsSpace c = false) ∧ ('\n' ∉ s.toList) := by
    intro s hs
    rcases List.mem_cons.mp hs with rfl | hs
    · exact ⟨by decide, by decide, by decide⟩
    rcases List.mem_append.mp hs with hs | hs
    · refine ⟨?_, ?_, ?_⟩
      · intro hm; exact absurd (hd s hs ',' hm).1 (by decide)
      · intro c hc; exact not_space_of_ge_zero c (hd s hs c hc).1
      · intro hm; exact absurd (hd s hs '\n' hm).1 (by decide)
    rcases List.mem_cons.mp hs with rfl | hs
    · exact ⟨by decide, by decide, by decide⟩
    · refine ⟨?_, ?_, ?_⟩
      · intro hm; exact absurd (ha s hs ',' hm).1 (by decide)
      · intro c hc; exact not_space_of_ge_zero c (ha s hs c hc).1
      · intro hm; exact absurd (ha s hs '\n' hm).1 (by decide)
  have hnl : '\n' ∉ (pyJoin ", "
      ("digital_channels" :: (dtoks ++ "analog_channels" :: atoks))).toList := by
    show '\n' ∉ joinSep [',', ' ']
      (("digital_channels" :: (dtoks ++ "analog_channels" :: atoks)).map String.toList)
    apply not_mem_joinSep '\n' [',', ' '] (by decide)
    intro x hx
    rcases List.mem_map.mp hx with ⟨s, hs, rfl⟩
    exact (hptok s hs).2.2
  have hresp : (pySplit ","
      (pyJoin ", " ("digital_channels" :: (dtoks ++ "analog_channels" :: atoks)))).map pyStrip
      = "digital_channels" :: (dtoks ++ "analog_channels" :: atoks) :=
    response_of_parts _ _ (fun s hs => (hptok s hs).1) (fun s hs => (hptok s hs).2.1)
  have hnot : "analog_channels" ∉ "digital_channels" :: dtoks := by
    intro hmem
    rcases List.mem_cons.mp hmem with e | hmem
    · exact absurd e (by decide)
    · exact absurd (hd "analog_channels" hmem 'a' (by decide)).2 (by decide)
  have hidx : pyIndex "analog_channels"
      ("digital_channels" :: (dtoks ++ "analog_channels" :: atoks)) =
      some (dtoks.length + 1) := by
    have h := pyIndex_append "analog_channels" ("digital_channels" :: dtoks) atoks hnot
    simpa using h
  have htake : ((("digital_channels" :: (dtoks ++ "analog_channels" :: atoks)).take
      (dtoks.length + 1)).drop 1).mapM pyIntDec = some ds := by
    show (((("digital_channels" :: dtoks) ++ ("analog_channels" :: atoks)).take
      (dtoks.length + 1)).drop 1).mapM pyIntDec = some ds
    rw [show dtoks.length + 1 = ("digital_channels" :: dtoks).length from by simp,
      List.take_left]
    exact hds
  have hdrop : (("digital_channels" :: (dtoks ++ "analog_channels" :: atoks)).drop
      (dtoks.length + 1 + 1)).mapM pyIntDec = some as := by
    show ((("digital_channels" :: dtoks) ++ ("analog_channels" :: atoks)).drop
      (dtoks.length + 1 + 1)).mapM pyIntDec = some as
    rw [show dtoks.length + 1 + 1 = ("digital_channels" :: dtoks).length + 1 from by simp]
    rw [show (("digital_channels" :: dtoks) ++ ("analog_channels" :: atoks)).drop
        (("digital_channels" :: dtoks).length + 1) = ("analog_channels" :: atoks).drop 1 from by
      simp [List.drop_append]]
    exact has
  rw [get_active_channels_line _ hnl, hresp, hidx]
  show (match ((("digital_channels" :: (dtoks ++ "analog_channels" :: atoks)).take
          (dtoks.length + 1)).drop 1).mapM pyIntDec,
        (("digital_channels" :: (dtoks ++ "analog_channels" :: atoks)).drop
          (dtoks.length + 1 + 1)).mapM pyIntDec with
    | some digital, some analog => Except.ok (digital, analog)
    | _, _ => Except.error (SalError.valueError "invalid literal for int() with base 10"))
    = Except.ok (ds, as)
  rw [htake, hdrop]

/-- C6 (witness): two digital channels and one analog channel. -/
theorem spec_C6_witness :
    get_active_channels
      (pyJoin ", " ("digital_channels" :: (["0", "7"] ++ "analog_channels" :: ["3"]))
        ++ "\nACK") = Except.ok ([0, 7], [3])
    ∧ get_active_channels "digital_channels, 0, 1, 2, analog_channels, 4, 5\nACK"
      = Except.ok ([0, 1, 2], [4, 5]) :=
  spec_C6 ["0", "7"] ["3"] [0, 7] [3] (by decide) (by decide) rfl rfl

end Salamander
